import Mathlib

/-!
Verification of the serial framing/codec/history core of the
"Bola no Tubo" desktop application (`src/app/bola_no_tubo.py`).

The Python source is shallowly embedded: bytes are `Nat` values (< 256 in
practice), timestamps are rationals (seconds), the reader-loop framing logic
becomes a step function on an explicit framer state, and the GUI/serial side
effects become explicit state records and result values.
-/

/-- Protocol constant: bytes per received frame (micro -> PC). -/
def BYTES_PER_FRAME_RX : Nat := 15

/-- Protocol constant: bytes per transmitted frame (PC -> micro). -/
def BYTES_PER_FRAME_TX : Nat := 7

/-- Default plot window in seconds. -/
def PLOT_WINDOW_SECONDS : Nat := 60

/-- Maximum height in millimetres. -/
def HEIGHT_MAX_MM : Nat := 500

/-- Maximum raw fan duty value. -/
def MAX_DUTY_RAW : Nat := 1023

/-- Maximum valve steps. -/
def MAX_VALVE_STEPS : Nat := 420

/-- Inter-byte gap (seconds) that delimits an RX frame: `FRAME_GAP_S = 0.040`. -/
def FRAME_GAP_S : ℚ := 40 / 1000

/-- Source helper `clamp(val, lo, hi) = max(lo, min(hi, val))`. -/
def clamp (val lo hi : ℤ) : ℤ := max lo (min hi val)

/-! ## Byte-stream framer (`_reader_loop`)

State of the framing loop: the pending byte buffer (`self.buffer`) and the
arrival time of the most recent byte (`last_byte_t`, `None` initially). -/

structure FramerState where
  buffer : List Nat
  lastByteT : Option ℚ
deriving DecidableEq, Repr

/-- Initial framer state: `self.buffer = bytearray(); last_byte_t = None`. -/
def initFramer : FramerState := ⟨[], none⟩

/-- Finalisation of a pending buffer: `_handle_frame` is invoked only when the
buffer length is exactly `BYTES_PER_FRAME_RX`; otherwise the bytes are
silently discarded. The emitted frames are collected in a list. -/
def finalizeEmit (buf : List Nat) : List (List Nat) :=
  if buf.length = BYTES_PER_FRAME_RX then [buf] else []

/-- Processing of one byte `b` arriving at time `t` inside the chunk loop of
`_reader_loop`: if a gap larger than `FRAME_GAP_S` elapsed since the previous
byte, finalize (emit the buffer when it has exactly 15 bytes) and clear the
buffer; then append `b` and record `t` as the last arrival time. -/
def processByte (s : FramerState) (b : Nat) (t : ℚ) : FramerState × List (List Nat) :=
  match s.lastByteT with
  | some lt =>
      if t - lt > FRAME_GAP_S then
        (⟨[b], some t⟩, finalizeEmit s.buffer)
      else
        (⟨s.buffer ++ [b], some t⟩, [])
  | none => (⟨s.buffer ++ [b], some t⟩, [])

/-- The empty-read branch of `_reader_loop`: when no bytes arrived, if a gap
larger than `FRAME_GAP_S` elapsed since the last byte and the buffer is
non-empty, finalize, clear the buffer and reset `last_byte_t` to `None`. -/
def pollTick (s : FramerState) (now : ℚ) : FramerState × List (List Nat) :=
  match s.lastByteT with
  | some lt =>
      if now - lt > FRAME_GAP_S ∧ s.buffer ≠ [] then
        (⟨[], none⟩, finalizeEmit s.buffer)
      else
        (s, [])
  | none => (s, [])

/-- An observable event of the reader loop: a byte arriving at a given time,
or a polling iteration that read no bytes. -/
inductive FrEvent where
  | byte (b : Nat) (t : ℚ)
  | tick (now : ℚ)
deriving DecidableEq, Repr

/-- One reader-loop step on an event. -/
def stepEvent (s : FramerState) : FrEvent → FramerState × List (List Nat)
  | .byte b t => processByte s b t
  | .tick now => pollTick s now

/-- Run the reader loop over a sequence of events, collecting all emitted
frames in order. -/
def runEvents (s : FramerState) : List FrEvent → FramerState × List (List Nat)
  | [] => (s, [])
  | e :: es =>
      let r := stepEvent s e
      let r2 := runEvents r.1 es
      (r2.1, r.2 ++ r2.2)

/-- Byte events for the list `bs` arriving at times `t0, t0+dt, t0+2*dt, …`. -/
def bytesAt : List Nat → ℚ → ℚ → List FrEvent
  | [], _, _ => []
  | b :: rest, t0, dt => FrEvent.byte b t0 :: bytesAt rest (t0 + dt) dt

lemma runEvents_nil (s : FramerState) : runEvents s [] = (s, []) := rfl

lemma runEvents_cons (s : FramerState) (e : FrEvent) (es : List FrEvent) :
    runEvents s (e :: es) =
      ((runEvents (stepEvent s e).1 es).1,
        (stepEvent s e).2 ++ (runEvents (stepEvent s e).1 es).2) := rfl

lemma runEvents_append (s : FramerState) (es1 es2 : List FrEvent) :
    runEvents s (es1 ++ es2) =
      ((runEvents (runEvents s es1).1 es2).1,
        (runEvents s es1).2 ++ (runEvents (runEvents s es1).1 es2).2) := by
  induction es1 generalizing s with
  | nil => simp [runEvents_nil]
  | cons e es ih =>
      simp only [List.cons_append, runEvents_cons, ih, List.append_assoc]

lemma runEvents_append_snd (s : FramerState) (es1 es2 : List FrEvent) :
    (runEvents s (es1 ++ es2)).2 =
      (runEvents s es1).2 ++ (runEvents (runEvents s es1).1 es2).2 := by
  rw [runEvents_append]

/-- Feeding a non-empty run of bytes whose inter-arrival spacing `dt` is at
most the gap threshold, starting within the threshold of the previous byte
(or from a fresh state), appends all the bytes to the buffer and emits
nothing. -/
lemma runEvents_bytesAt_cons (dt : ℚ) (hdt0 : 0 ≤ dt) (hdt : dt ≤ FRAME_GAP_S) :
    ∀ (rest : List Nat) (b : Nat) (s : FramerState) (t0 : ℚ),
      (∀ lt, s.lastByteT = some lt → t0 - lt ≤ FRAME_GAP_S) →
      runEvents s (bytesAt (b :: rest) t0 dt) =
        (⟨s.buffer ++ b :: rest, some (t0 + rest.length * dt)⟩, []) := by
  intro rest
  induction rest with
  | nil =>
      intro b s t0 hstart
      cases hlast : s.lastByteT with
      | none =>
          simp [bytesAt, runEvents_cons, runEvents_nil, stepEvent, processByte, hlast]
      | some lt =>
          have h1 : ¬ (t0 - lt > FRAME_GAP_S) := not_lt.mpr (hstart lt hlast)
          simp [bytesAt, runEvents_cons, runEvents_nil, stepEvent, processByte, hlast, h1]
  | cons c rest2 ih =>
      intro b s t0 hstart
      have hstep : processByte s b t0 = (⟨s.buffer ++ [b], some t0⟩, []) := by
        cases hlast : s.lastByteT with
        | none => simp [processByte, hlast]
        | some lt =>
            have h1 : ¬ (t0 - lt > FRAME_GAP_S) := not_lt.mpr (hstart lt hlast)
            simp [processByte, hlast, h1]
      have hnext : ∀ lt, (⟨s.buffer ++ [b], some t0⟩ : FramerState).lastByteT = some lt →
          (t0 + dt) - lt ≤ FRAME_GAP_S := by
        intro lt hlt
        simp only [Option.some.injEq] at hlt
        subst hlt
        simpa using hdt
      have hrec := ih c (⟨s.buffer ++ [b], some t0⟩ : FramerState) (t0 + dt) hnext
      rw [bytesAt, runEvents_cons]
      simp only [stepEvent, hstep, hrec]
      simp only [Prod.mk.injEq, FramerState.mk.injEq, List.nil_append, List.append_assoc,
        List.singleton_append, List.length_cons, Option.some.injEq]
      refine ⟨⟨trivial, ?_⟩, trivial⟩
      push_cast
      ring

/-- Feeding a non-empty run of bytes with spacing `dt ≤ FRAME_GAP_S`, whose
first byte arrives after a gap strictly larger than the threshold, finalizes
the pending buffer (emitting it exactly when it has 15 bytes) and then
accumulates the new bytes. -/
lemma runEvents_bytesAt_gap (dt : ℚ) (hdt0 : 0 ≤ dt) (hdt : dt ≤ FRAME_GAP_S)
    (rest : List Nat) (b : Nat) (s : FramerState) (t0 lt : ℚ)
    (hlt : s.lastByteT = some lt) (hgap : t0 - lt > FRAME_GAP_S) :
    runEvents s (bytesAt (b :: rest) t0 dt) =
      (⟨b :: rest, some (t0 + rest.length * dt)⟩, finalizeEmit s.buffer) := by
  have hstep : processByte s b t0 = (⟨[b], some t0⟩, finalizeEmit s.buffer) := by
    simp [processByte, hlt, hgap]
  cases rest with
  | nil =>
      simp [bytesAt, runEvents_cons, runEvents_nil, stepEvent, hstep]
  | cons c rest2 =>
      have hnext : ∀ lt2, (⟨[b], some t0⟩ : FramerState).lastByteT = some lt2 →
          (t0 + dt) - lt2 ≤ FRAME_GAP_S := by
        intro lt2 hlt2
        simp only [Option.some.injEq] at hlt2
        subst hlt2
        simpa using hdt
      have hrest := runEvents_bytesAt_cons dt hdt0 hdt rest2 c
        (⟨[b], some t0⟩ : FramerState) (t0 + dt) hnext
      rw [bytesAt, runEvents_cons]
      simp only [stepEvent, hstep, hrest]
      simp only [Prod.mk.injEq, FramerState.mk.injEq, List.singleton_append,
        List.length_cons, Option.some.injEq, List.append_nil]
      refine ⟨⟨trivial, ?_⟩, trivial⟩
      push_cast
      ring

/-- Event sequence of the resynchronization scenario: a first group of bytes
starting at t = 0 s, a second group starting at t = 0.100 s, a third group
starting at t = 0.200 s (bytes within a group 1 ms apart, so the gaps between
groups exceed the 40 ms threshold), followed by a quiet polling tick at
t = 0.300 s. -/
def resyncEvents (g1 g2 g3 : List Nat) : List FrEvent :=
  bytesAt g1 0 (1 / 1000) ++ bytesAt g2 (100 / 1000) (1 / 1000) ++
    bytesAt g3 (200 / 1000) (1 / 1000) ++ [FrEvent.tick (300 / 1000)]

/-- Event sequence feeding the 15 bytes of `bs` in chunks of 1, 1 and 13
bytes, with 30 ms (< 40 ms) between chunks and 1 ms between bytes of the
third chunk, followed by a quiet polling tick at t = 0.200 s. -/
def chunkedEvents (bs : List Nat) : List FrEvent :=
  bytesAt (bs.take 1) 0 (1 / 1000) ++ bytesAt ((bs.drop 1).take 1) (30 / 1000) (1 / 1000) ++
    bytesAt (bs.drop 2) (60 / 1000) (1 / 1000) ++ [FrEvent.tick (200 / 1000)]

/-- Event sequence feeding all 15 bytes of `bs` as one chunk (1 ms apart),
followed by a quiet polling tick at t = 0.200 s. -/
def unsplitEvents (bs : List Nat) : List FrEvent :=
  bytesAt bs 0 (1 / 1000) ++ [FrEvent.tick (200 / 1000)]

/-- C1. Framer resynchronization: feeding a 15-byte group, a gap larger than
the 40 ms threshold, a 3-byte group, another large gap, and a second 15-byte
group (finalized by a quiet polling tick) emits exactly the first and third
groups; the 3-byte group is discarded and never emitted. -/
theorem framer_resync (g1 g2 g3 : List Nat)
    (h1 : g1.length = 15) (h2 : g2.length = 3) (h3 : g3.length = 15) :
    (runEvents initFramer (resyncEvents g1 g2 g3)).2 = [g1, g3] := by
  obtain ⟨a, g1r, rfl⟩ : ∃ x r, g1 = x :: r := by
    cases g1 with
    | nil => simp at h1
    | cons x r => exact ⟨x, r, rfl⟩
  obtain ⟨b, g2r, rfl⟩ : ∃ x r, g2 = x :: r := by
    cases g2 with
    | nil => simp at h2
    | cons x r => exact ⟨x, r, rfl⟩
  obtain ⟨c, g3r, rfl⟩ : ∃ x r, g3 = x :: r := by
    cases g3 with
    | nil => simp at h3
    | cons x r => exact ⟨x, r, rfl⟩
  have h1r : g1r.length = 14 := by simpa using h1
  have h2r : g2r.length = 2 := by simpa using h2
  have h3r : g3r.length = 14 := by simpa using h3
  have hdt0 : (0 : ℚ) ≤ 1 / 1000 := by norm_num
  have hdt : (1 : ℚ) / 1000 ≤ FRAME_GAP_S := by norm_num [FRAME_GAP_S]
  have hA : runEvents initFramer (bytesAt (a :: g1r) 0 (1 / 1000))
      = (⟨a :: g1r, some (14 / 1000)⟩, []) := by
    rw [runEvents_bytesAt_cons (1 / 1000) hdt0 hdt g1r a initFramer 0
      (fun lt h => by simp [initFramer] at h)]
    norm_num [initFramer, h1r]
  have hB : runEvents (⟨a :: g1r, some (14 / 1000)⟩ : FramerState)
        (bytesAt (b :: g2r) (100 / 1000) (1 / 1000))
      = (⟨b :: g2r, some (102 / 1000)⟩, [a :: g1r]) := by
    rw [runEvents_bytesAt_gap (1 / 1000) hdt0 hdt g2r b _ (100 / 1000) (14 / 1000) rfl
      (by norm_num [FRAME_GAP_S])]
    norm_num [finalizeEmit, BYTES_PER_FRAME_RX, h1, h2r]
  have hC : runEvents (⟨b :: g2r, some (102 / 1000)⟩ : FramerState)
        (bytesAt (c :: g3r) (200 / 1000) (1 / 1000))
      = (⟨c :: g3r, some (214 / 1000)⟩, []) := by
    rw [runEvents_bytesAt_gap (1 / 1000) hdt0 hdt g3r c _ (200 / 1000) (102 / 1000) rfl
      (by norm_num [FRAME_GAP_S])]
    norm_num [finalizeEmit, BYTES_PER_FRAME_RX, h2, h3r]
  have hD : runEvents (⟨c :: g3r, some (214 / 1000)⟩ : FramerState) [FrEvent.tick (300 / 1000)]
      = (⟨[], none⟩, [c :: g3r]) := by
    have hp : pollTick (⟨c :: g3r, some (214 / 1000)⟩ : FramerState) (300 / 1000)
        = (⟨[], none⟩, [c :: g3r]) := by
      norm_num [pollTick, FRAME_GAP_S, finalizeEmit, BYTES_PER_FRAME_RX, h3]
      all_goals simp
    simp [runEvents_cons, runEvents_nil, stepEvent, hp]
  have hA1 : (runEvents initFramer (bytesAt (a :: g1r) 0 (1 / 1000))).1
      = (⟨a :: g1r, some (14 / 1000)⟩ : FramerState) := by rw [hA]
  have hA2 : (runEvents initFramer (bytesAt (a :: g1r) 0 (1 / 1000))).2 = [] := by rw [hA]
  have hB1 : (runEvents (⟨a :: g1r, some (14 / 1000)⟩ : FramerState)
      (bytesAt (b :: g2r) (100 / 1000) (1 / 1000))).1
      = (⟨b :: g2r, some (102 / 1000)⟩ : FramerState) := by rw [hB]
  have hB2 : (runEvents (⟨a :: g1r, some (14 / 1000)⟩ : FramerState)
      (bytesAt (b :: g2r) (100 / 1000) (1 / 1000))).2 = [a :: g1r] := by rw [hB]
  have hC1 : (runEvents (⟨b :: g2r, some (102 / 1000)⟩ : FramerState)
      (bytesAt (c :: g3r) (200 / 1000) (1 / 1000))).1
      = (⟨c :: g3r, some (214 / 1000)⟩ : FramerState) := by rw [hC]
  have hC2 : (runEvents (⟨b :: g2r, some (102 / 1000)⟩ : FramerState)
      (bytesAt (c :: g3r) (200 / 1000) (1 / 1000))).2 = [] := by rw [hC]
  have hD2 : (runEvents (⟨c :: g3r, some (214 / 1000)⟩ : FramerState)
      [FrEvent.tick (300 / 1000)]).2 = [c :: g3r] := by rw [hD]
  simp only [resyncEvents]
  rw [List.append_assoc, List.append_assoc]
  rw [runEvents_append_snd, hA2, hA1, runEvents_append_snd, hB2, hB1,
    runEvents_append_snd, hC2, hC1, hD2]
  simp

/-- Closed instance of `framer_resync` at concrete byte groups. -/
theorem framer_resync_witness :
    (runEvents initFramer
        (resyncEvents (List.replicate 15 0) (List.replicate 3 1) (List.replicate 15 2))).2
      = [List.replicate 15 0, List.replicate 15 2] :=
  framer_resync (List.replicate 15 0) (List.replicate 3 1) (List.replicate 15 2)
    (by simp) (by simp) (by simp)

/-- C2. Framer chunk invariance: a 15-byte frame fed in chunks of 1, 1 and 13
bytes with sub-threshold inter-chunk gaps, finalized by a quiet tick, emits
exactly one frame, identical to the frame emitted when the same bytes are fed
as a single chunk. -/
theorem framer_chunk_invariance (bs : List Nat) (h : bs.length = 15) :
    (runEvents initFramer (chunkedEvents bs)).2 = [bs] ∧
    (runEvents initFramer (unsplitEvents bs)).2 = (runEvents initFramer (chunkedEvents bs)).2 := by
  obtain ⟨b0, b1, b2, r, rfl⟩ : ∃ x y z r, bs = x :: y :: z :: r := by
    cases bs with
    | nil => simp at h
    | cons x t1 =>
        cases t1 with
        | nil => simp at h
        | cons y t2 =>
            cases t2 with
            | nil => simp at h
            | cons z r => exact ⟨x, y, z, r, rfl⟩
  have hr : r.length = 12 := by simpa using h
  have hdt0 : (0 : ℚ) ≤ 1 / 1000 := by norm_num
  have hdt : (1 : ℚ) / 1000 ≤ FRAME_GAP_S := by norm_num [FRAME_GAP_S]
  have hA : runEvents initFramer (bytesAt [b0] 0 (1 / 1000))
      = (⟨[b0], some 0⟩, []) := by
    rw [runEvents_bytesAt_cons (1 / 1000) hdt0 hdt [] b0 initFramer 0
      (fun lt hl => by simp [initFramer] at hl)]
    norm_num [initFramer]
  have hB : runEvents (⟨[b0], some 0⟩ : FramerState) (bytesAt [b1] (30 / 1000) (1 / 1000))
      = (⟨[b0, b1], some (30 / 1000)⟩, []) := by
    rw [runEvents_bytesAt_cons (1 / 1000) hdt0 hdt [] b1 (⟨[b0], some 0⟩ : FramerState)
      (30 / 1000) (fun lt hl => by
        simp only [Option.some.injEq] at hl
        subst hl
        norm_num [FRAME_GAP_S])]
    norm_num
  have hC : runEvents (⟨[b0, b1], some (30 / 1000)⟩ : FramerState)
        (bytesAt (b2 :: r) (60 / 1000) (1 / 1000))
      = (⟨b0 :: b1 :: b2 :: r, some (72 / 1000)⟩, []) := by
    rw [runEvents_bytesAt_cons (1 / 1000) hdt0 hdt r b2 (⟨[b0, b1], some (30 / 1000)⟩ : FramerState)
      (60 / 1000) (fun lt hl => by
        simp only [Option.some.injEq] at hl
        subst hl
        norm_num [FRAME_GAP_S])]
    norm_num [hr]
  have hD : runEvents (⟨b0 :: b1 :: b2 :: r, some (72 / 1000)⟩ : FramerState)
        [FrEvent.tick (200 / 1000)]
      = (⟨[], none⟩, [b0 :: b1 :: b2 :: r]) := by
    have hp : pollTick (⟨b0 :: b1 :: b2 :: r, some (72 / 1000)⟩ : FramerState) (200 / 1000)
        = (⟨[], none⟩, [b0 :: b1 :: b2 :: r]) := by
      norm_num [pollTick, FRAME_GAP_S, finalizeEmit, BYTES_PER_FRAME_RX, h]
      all_goals simp
    simp [runEvents_cons, runEvents_nil, stepEvent, hp]
  have hU : runEvents initFramer (bytesAt (b0 :: b1 :: b2 :: r) 0 (1 / 1000))
      = (⟨b0 :: b1 :: b2 :: r, some (14 / 1000)⟩, []) := by
    rw [runEvents_bytesAt_cons (1 / 1000) hdt0 hdt (b1 :: b2 :: r) b0 initFramer 0
      (fun lt hl => by simp [initFramer] at hl)]
    norm_num [initFramer, hr]
  have hV : runEvents (⟨b0 :: b1 :: b2 :: r, some (14 / 1000)⟩ : FramerState)
        [FrEvent.tick (200 / 1000)]
      = (⟨[], none⟩, [b0 :: b1 :: b2 :: r]) := by
    have hp : pollTick (⟨b0 :: b1 :: b2 :: r, some (14 / 1000)⟩ : FramerState) (200 / 1000)
        = (⟨[], none⟩, [b0 :: b1 :: b2 :: r]) := by
      norm_num [pollTick, FRAME_GAP_S, finalizeEmit, BYTES_PER_FRAME_RX, h]
      all_goals simp
    simp [runEvents_cons, runEvents_nil, stepEvent, hp]
  have htake1 : (b0 :: b1 :: b2 :: r).take 1 = [b0] := by simp
  have htake2 : ((b0 :: b1 :: b2 :: r).drop 1).take 1 = [b1] := by simp
  have hdrop2 : (b0 :: b1 :: b2 :: r).drop 2 = b2 :: r := by simp
  have hA1 : (runEvents initFramer (bytesAt [b0] 0 (1 / 1000))).1
      = (⟨[b0], some 0⟩ : FramerState) := by rw [hA]
  have hA2 : (runEvents initFramer (bytesAt [b0] 0 (1 / 1000))).2 = [] := by rw [hA]
  have hB1 : (runEvents (⟨[b0], some 0⟩ : FramerState) (bytesAt [b1] (30 / 1000) (1 / 1000))).1
      = (⟨[b0, b1], some (30 / 1000)⟩ : FramerState) := by rw [hB]
  have hB2 : (runEvents (⟨[b0], some 0⟩ : FramerState) (bytesAt [b1] (30 / 1000) (1 / 1000))).2
      = [] := by rw [hB]
  have hC1 : (runEvents (⟨[b0, b1], some (30 / 1000)⟩ : FramerState)
      (bytesAt (b2 :: r) (60 / 1000) (1 / 1000))).1
      = (⟨b0 :: b1 :: b2 :: r, some (72 / 1000)⟩ : FramerState) := by rw [hC]
  have hC2 : (runEvents (⟨[b0, b1], some (30 / 1000)⟩ : FramerState)
      (bytesAt (b2 :: r) (60 / 1000) (1 / 1000))).2 = [] := by rw [hC]
  have hD2 : (runEvents (⟨b0 :: b1 :: b2 :: r, some (72 / 1000)⟩ : FramerState)
      [FrEvent.tick (200 / 1000)]).2 = [b0 :: b1 :: b2 :: r] := by rw [hD]
  have hU1 : (runEvents initFramer (bytesAt (b0 :: b1 :: b2 :: r) 0 (1 / 1000))).1
      = (⟨b0 :: b1 :: b2 :: r, some (14 / 1000)⟩ : FramerState) := by rw [hU]
  have hU2 : (runEvents initFramer (bytesAt (b0 :: b1 :: b2 :: r) 0 (1 / 1000))).2 = [] := by
    rw [hU]
  have hV2 : (runEvents (⟨b0 :: b1 :: b2 :: r, some (14 / 1000)⟩ : FramerState)
      [FrEvent.tick (200 / 1000)]).2 = [b0 :: b1 :: b2 :: r] := by rw [hV]
  have hchunk : (runEvents initFramer (chunkedEvents (b0 :: b1 :: b2 :: r))).2
      = [b0 :: b1 :: b2 :: r] := by
    simp only [chunkedEvents, htake1, htake2, hdrop2]
    rw [List.append_assoc, List.append_assoc]
    rw [runEvents_append_snd, hA2, hA1, runEvents_append_snd, hB2, hB1,
      runEvents_append_snd, hC2, hC1, hD2]
    simp
  refine ⟨hchunk, ?_⟩
  rw [hchunk]
  simp only [unsplitEvents]
  rw [runEvents_append_snd, hU2, hU1, hV2]
  simp

/-- Closed instance of `framer_chunk_invariance` at a concrete frame. -/
theorem framer_chunk_invariance_witness :
    (runEvents initFramer (chunkedEvents (List.replicate 15 7))).2 = [List.replicate 15 7] ∧
    (runEvents initFramer (unsplitEvents (List.replicate 15 7))).2
      = (runEvents initFramer (chunkedEvents (List.replicate 15 7))).2 :=
  framer_chunk_invariance (List.replicate 15 7) (by simp)

/-! ## Frame decoder (`_handle_frame` header)

The unpack call of format `>B H H H H H H H` on a buffer that `_handle_frame`
has already checked to have exactly `BYTES_PER_FRAME_RX` bytes. -/

/-- A decoded telemetry sample: one unsigned byte followed by seven unsigned
16-bit big-endian fields. -/
structure Sample where
  mode : Nat
  heightSetpoint : Nat
  heightMeasured : Nat
  flightTimeAvg : Nat
  temperature : Nat
  valveSetpoint : Nat
  valvePosition : Nat
  fanDuty : Nat
deriving DecidableEq, Repr

/-- Source helper `be_u16`: decode two bytes big-endian into an unsigned short. -/
def be_u16 (hi lo : Nat) : Nat := hi * 256 + lo

/-- Frame decoding of `_handle_frame`: `return` on a wrong-length frame
(modelled as `none`), otherwise unpack the eight fields at their fixed
offsets. -/
def decodeFrame (frame : List Nat) : Option Sample :=
  if frame.length = BYTES_PER_FRAME_RX then
    some ⟨frame.getD 0 0,
          be_u16 (frame.getD 1 0) (frame.getD 2 0),
          be_u16 (frame.getD 3 0) (frame.getD 4 0),
          be_u16 (frame.getD 5 0) (frame.getD 6 0),
          be_u16 (frame.getD 7 0) (frame.getD 8 0),
          be_u16 (frame.getD 9 0) (frame.getD 10 0),
          be_u16 (frame.getD 11 0) (frame.getD 12 0),
          be_u16 (frame.getD 13 0) (frame.getD 14 0)⟩
  else none

/-- C3. Frame decode is total on 15-byte buffers and fails exactly otherwise:
it yields a sample if and only if the buffer has exactly 15 bytes, and on
every 15-byte buffer it yields the unsigned byte at offset 0 as `mode` and
the seven unsigned big-endian 16-bit fields at offsets 1,3,5,7,9,11,13, with
no value validation. -/
theorem decode_total_on_15 (frame : List Nat) :
    ((decodeFrame frame).isSome ↔ frame.length = 15) ∧
    (frame.length ≠ 15 → decodeFrame frame = none) ∧
    (frame.length = 15 → decodeFrame frame =
      some ⟨frame.getD 0 0, be_u16 (frame.getD 1 0) (frame.getD 2 0),
        be_u16 (frame.getD 3 0) (frame.getD 4 0), be_u16 (frame.getD 5 0) (frame.getD 6 0),
        be_u16 (frame.getD 7 0) (frame.getD 8 0), be_u16 (frame.getD 9 0) (frame.getD 10 0),
        be_u16 (frame.getD 11 0) (frame.getD 12 0),
        be_u16 (frame.getD 13 0) (frame.getD 14 0)⟩) := by
  refine ⟨?_, ?_, ?_⟩ <;> by_cases h : frame.length = 15 <;>
    simp [decodeFrame, BYTES_PER_FRAME_RX, h]

/-- Closed instance of `decode_total_on_15`: a concrete 15-byte buffer
decodes to its fields, and a 3-byte buffer is rejected. -/
theorem decode_total_on_15_witness :
    decodeFrame [1, 0, 2, 0, 3, 0, 4, 0, 5, 0, 6, 0, 7, 0, 8]
      = some ⟨1, 2, 3, 4, 5, 6, 7, 8⟩ ∧
    decodeFrame [1, 2, 3] = none := by
  constructor
  · rw [(decode_total_on_15 [1, 0, 2, 0, 3, 0, 4, 0, 5, 0, 6, 0, 7, 0, 8]).2.2 (by decide)]
    decide
  · exact (decode_total_on_15 [1, 2, 3]).2.1 (by decide)

/-! ## Sample history (`_handle_frame` tail)

Five parallel deques: timestamps, height setpoint, measured height,
duty percent and valve percent. -/

structure History where
  t : List ℚ
  spH : List Nat
  measH : List Nat
  dutyPct : List ℚ
  valvePct : List ℚ
deriving DecidableEq, Repr

/-- The eviction loop
`while self.t_hist and self.t_hist[0] < tmin: popleft` on all five deques. -/
def evictLoop (tmin : ℚ) : List ℚ → List Nat → List Nat → List ℚ → List ℚ → History
  | t0 :: ts, sp, me, du, va =>
      if t0 < tmin then evictLoop tmin ts sp.tail me.tail du.tail va.tail
      else ⟨t0 :: ts, sp, me, du, va⟩
  | [], sp, me, du, va => ⟨[], sp, me, du, va⟩

/-- History update of `_handle_frame`: append the arrival time and the four
series values (duty and valve converted to percent, guarded by the Python
truthiness tests on the max constants), then evict from the front every entry
whose timestamp is strictly older than `now - window`. -/
def pushSample (h : History) (now : ℚ) (B C G Hd : Nat) (window : ℚ) : History :=
  let dPct : ℚ := if MAX_DUTY_RAW ≠ 0 then ((Hd : ℚ) / MAX_DUTY_RAW) * 100 else 0
  let vPct : ℚ := if MAX_VALVE_STEPS ≠ 0 then ((G : ℚ) / MAX_VALVE_STEPS) * 100 else 0
  evictLoop (now - window) (h.t ++ [now]) (h.spH ++ [B]) (h.measH ++ [C])
    (h.dutyPct ++ [dPct]) (h.valvePct ++ [vPct])

lemma evictLoop_t (tmin : ℚ) :
    ∀ (ts : List ℚ) (sp me : List Nat) (du va : List ℚ),
      (evictLoop tmin ts sp me du va).t = ts.dropWhile (fun x => decide (x < tmin)) := by
  intro ts
  induction ts with
  | nil => intro sp me du va; simp [evictLoop, List.dropWhile]
  | cons t0 ts ih =>
      intro sp me du va
      by_cases hlt : t0 < tmin
      · simp [evictLoop, hlt, List.dropWhile_cons, ih]
      · simp [evictLoop, hlt, List.dropWhile_cons]

lemma sorted_dropWhile_lt (tmin : ℚ) :
    ∀ (l : List ℚ), l.Sorted (· ≤ ·) →
      ∀ x ∈ l.dropWhile (fun y => decide (y < tmin)), tmin ≤ x := by
  intro l
  induction l with
  | nil => intro _ x hx; simp [List.dropWhile] at hx
  | cons a l ih =>
      intro hs x hx
      rw [List.sorted_cons] at hs
      by_cases ha : a < tmin
      · rw [List.dropWhile_cons] at hx
        simp only [ha, decide_True, decide_False, if_true, if_false] at hx
        exact ih hs.2 x hx
      · rw [List.dropWhile_cons] at hx
        simp only [ha, decide_True, decide_False, if_true, if_false] at hx
        rcases List.mem_cons.mp hx with rfl | hx2
        · exact not_lt.mp ha
        · exact le_trans (not_lt.mp ha) (hs.1 x hx2)

/-- C6. Window invariant of the history buffer: a push appends and then
evicts from the front exactly the entries strictly older than
`now - window`; when past timestamps are sorted and no newer than `now`,
every retained timestamp is at least `now - window`. Concretely, pushing
samples at 0,10,…,70 with a 60 s window retains exactly the timestamps ≥ 10:
the t = 0 sample is evicted by the push at t = 70. -/
theorem window_invariant (h : History) (now window : ℚ) (B C G Hd : Nat)
    (hsort : h.t.Sorted (· ≤ ·)) (hle : ∀ x ∈ h.t, x ≤ now) (hw : 0 ≤ window) :
    (pushSample h now B C G Hd window).t
        = (h.t ++ [now]).dropWhile (fun x => decide (x < now - window)) ∧
    (∀ x ∈ (pushSample h now B C G Hd window).t, now - window ≤ x) ∧
    (List.foldl (fun acc ts => pushSample acc ts 0 0 0 0 60) ⟨[], [], [], [], []⟩
        [0, 10, 20, 30, 40, 50, 60, 70]).t = [10, 20, 30, 40, 50, 60, 70] := by
  have ht : (pushSample h now B C G Hd window).t
      = (h.t ++ [now]).dropWhile (fun x => decide (x < now - window)) := by
    simp only [pushSample]
    exact evictLoop_t _ _ _ _ _ _
  have hsorted2 : (h.t ++ [now]).Sorted (· ≤ ·) := by
    apply List.pairwise_append.mpr
    refine ⟨hsort, List.sorted_singleton now, ?_⟩
    intro a ha b hb
    rw [List.mem_singleton] at hb
    subst hb
    exact hle a ha
  refine ⟨ht, ?_, by norm_num [pushSample, evictLoop, MAX_DUTY_RAW, MAX_VALVE_STEPS]⟩
  intro x hx
  rw [ht] at hx
  exact sorted_dropWhile_lt (now - window) (h.t ++ [now]) hsorted2 x hx

/-- Closed instance of `window_invariant`: after pushing t = 0 and then
t = 70 with a 60 s window, only the t = 70 entry remains and it satisfies the
window bound. -/
theorem window_invariant_witness :
    (pushSample ⟨[0], [1], [1], [0], [0]⟩ 70 1 2 3 4 60).t
        = ([0] ++ [70]).dropWhile (fun x => decide (x < 70 - 60)) ∧
    ∀ x ∈ (pushSample ⟨[0], [1], [1], [0], [0]⟩ 70 1 2 3 4 60).t, (70 : ℚ) - 60 ≤ x := by
  have hmain := window_invariant ⟨[0], [1], [1], [0], [0]⟩ 70 60 1 2 3 4
    (List.sorted_singleton 0) (by norm_num) (by norm_num)
  exact ⟨hmain.1, hmain.2.1⟩

/-- Equal lengths of the five deques. -/
def History.balanced (h : History) : Prop :=
  h.spH.length = h.t.length ∧ h.measH.length = h.t.length ∧
    h.dutyPct.length = h.t.length ∧ h.valvePct.length = h.t.length

lemma evictLoop_balanced (tmin : ℚ) :
    ∀ (ts : List ℚ) (sp me : List Nat) (du va : List ℚ),
      sp.length = ts.length → me.length = ts.length → du.length = ts.length →
      va.length = ts.length → (evictLoop tmin ts sp me du va).balanced := by
  intro ts
  induction ts with
  | nil =>
      intro sp me du va h1 h2 h3 h4
      simp only [evictLoop, History.balanced]
      exact ⟨h1, h2, h3, h4⟩
  | cons t0 ts ih =>
      intro sp me du va h1 h2 h3 h4
      by_cases hlt : t0 < tmin
      · simp only [evictLoop, if_pos hlt]
        refine ih _ _ _ _ ?_ ?_ ?_ ?_ <;> simp [List.length_tail, *]
      · simp only [evictLoop, if_neg hlt, History.balanced]
        exact ⟨h1, h2, h3, h4⟩

/-- C9. The five history deques stay in lockstep: they start with equal
lengths, and every push appends one element to each and evicts from each in
lockstep, preserving equality of the five lengths. -/
theorem hist_lockstep :
    History.balanced ⟨[], [], [], [], []⟩ ∧
    ∀ (h : History) (now window : ℚ) (B C G Hd : Nat),
      h.balanced → (pushSample h now B C G Hd window).balanced := by
  constructor
  · simp [History.balanced]
  · intro h now window B C G Hd hb
    obtain ⟨h1, h2, h3, h4⟩ := hb
    simp only [pushSample]
    refine evictLoop_balanced _ _ _ _ _ _ ?_ ?_ ?_ ?_ <;> simp [*]

/-- Closed instance of `hist_lockstep`: one push on the empty history keeps
the five deques at equal lengths. -/
theorem hist_lockstep_witness :
    (pushSample ⟨[], [], [], [], []⟩ 0 1 2 3 4 60).balanced :=
  hist_lockstep.2 ⟨[], [], [], [], []⟩ 0 60 1 2 3 4 hist_lockstep.1

/-! ## Transport session (`_disconnect`, `_send`)

The serial handle of the session is modelled as `Option Bool`:
`none` for `self.ser = None`, `some o` for a handle whose `is_open` flag is
`o`. -/

structure Session where
  ser : Option Bool
  readerAlive : Bool
deriving DecidableEq, Repr

/-- Source method `_disconnect`: stop the reader loop, join the thread, close and drop the
handle (exceptions on close are swallowed). -/
def disconnect (s : Session) : Session := ⟨none, false⟩

/-- A session is disconnected when it has no handle and no reading loop. -/
def Session.disconnected (s : Session) : Prop := s.ser = none ∧ s.readerAlive = false

/-- Result of `_send`. -/
inductive SendResult where
  | notConnected
  | wrongSize
  | sent
deriving DecidableEq, Repr

/-- Source method `_send`: return with a warning when `not self.ser or not self.ser.is_open`;
return with an error when the payload length differs from
`BYTES_PER_FRAME_TX`; otherwise write the payload. The second component is
the list of bytes written to the transport. -/
def sendOp (ser : Option Bool) (payload : List Nat) : SendResult × List Nat :=
  match ser with
  | none => (.notConnected, [])
  | some isOpen =>
      if isOpen = false then (.notConnected, [])
      else if payload.length ≠ BYTES_PER_FRAME_TX then (.wrongSize, [])
      else (.sent, payload)

/-- C7 counterexample: a 6-byte payload sent while disconnected fails with
the not-connected error, not the wrong-size error — the claimed
"WrongSize regardless of whether a connection is open" behaviour is false on the code,
whose connection check precedes the size check. -/
theorem send_wrongsize_counterexample :
    (sendOp none [0, 0, 0, 0, 0, 0]).1 = SendResult.notConnected ∧
    (sendOp none [0, 0, 0, 0, 0, 0]).1 ≠ SendResult.wrongSize := by decide

/-- C7 (amended). When a connection is open, every payload whose length
differs from 7 fails with the wrong-size error; whenever no connection is
open (no handle, or handle not open) every send fails with the not-connected
error; in every non-success case no bytes are written. -/
theorem send_validation (ser : Option Bool) (payload : List Nat) :
    (ser = some true → payload.length ≠ 7 → sendOp ser payload = (SendResult.wrongSize, [])) ∧
    ((ser = none ∨ ser = some false) → sendOp ser payload = (SendResult.notConnected, [])) ∧
    ((sendOp ser payload).1 ≠ SendResult.sent → (sendOp ser payload).2 = []) := by
  refine ⟨?_, ?_, ?_⟩
  · rintro rfl hlen
    simp [sendOp, BYTES_PER_FRAME_TX, hlen]
  · rintro (rfl | rfl) <;> simp [sendOp]
  · cases ser with
    | none => simp [sendOp]
    | some o =>
        cases o <;> by_cases hl : payload.length = BYTES_PER_FRAME_TX <;>
          simp [sendOp, hl]

/-- Closed instance of `send_validation`: wrong size while connected, and any
payload while disconnected. -/
theorem send_validation_witness :
    sendOp (some true) [0, 0, 0, 0, 0, 0] = (SendResult.wrongSize, []) ∧
    sendOp none [1, 2, 3, 4, 5, 6, 7] = (SendResult.notConnected, []) :=
  ⟨(send_validation (some true) [0, 0, 0, 0, 0, 0]).1 rfl (by decide),
   (send_validation none [1, 2, 3, 4, 5, 6, 7]).2.1 (Or.inl rfl)⟩

/-- C8. Disconnect is idempotent: after any disconnect the session is
disconnected, disconnecting twice equals disconnecting once, and
disconnecting an already-disconnected session leaves it unchanged (and never
raises: `disconnect` is total). -/
theorem disconnect_idempotent (s : Session) :
    (disconnect s).disconnected ∧ disconnect (disconnect s) = disconnect s ∧
    (s.disconnected → disconnect s = s) := by
  refine ⟨⟨rfl, rfl⟩, rfl, ?_⟩
  rintro ⟨h1, h2⟩
  cases s
  simp_all [disconnect]

/-- Closed instance of `disconnect_idempotent`: disconnecting a
never-connected session leaves it unchanged. -/
theorem disconnect_idempotent_witness :
    disconnect (⟨none, false⟩ : Session) = ⟨none, false⟩ :=
  (disconnect_idempotent ⟨none, false⟩).2.2 ⟨rfl, rfl⟩

/-! ## Command encoder (`_send_current_command`, `_send_reset`) -/

/-- Python `round` on an exact value: round half to even. -/
def roundHalfEven (q : ℚ) : ℤ :=
  if q - ⌊q⌋ < 1 / 2 then ⌊q⌋
  else if q - ⌊q⌋ > 1 / 2 then ⌈q⌉
  else if ⌊q⌋ % 2 = 0 then ⌊q⌋ else ⌊q⌋ + 1

/-- Conversion `int(round(pct * maxRaw / 100.0))`: percent-to-raw conversion of
`_send_current_command` (for the clamped integer percentages 0..100 the
float computation is exact enough that its rounding agrees with the exact
rational round-half-to-even). -/
def pctToRaw (pct : ℤ) (maxRaw : Nat) : ℤ :=
  roundHalfEven ((pct : ℚ) * (maxRaw : ℚ) / 100)

/-- Big-endian byte pair of an unsigned 16-bit value (`struct.pack` `>H`). -/
def u16beBytes (n : Nat) : List Nat := [n / 256, n % 256]

/-- Packing of a `struct.pack` field `B`: one unsigned byte, `struct.error` out of range. -/
def packB (v : ℤ) : Option (List Nat) :=
  if 0 ≤ v ∧ v < 256 then some [v.toNat] else none

/-- Packing of a `struct.pack` field `H`: an unsigned short, `struct.error` out of range. -/
def packH (v : ℤ) : Option (List Nat) :=
  if 0 ≤ v ∧ v < 65536 then some (u16beBytes v.toNat) else none

/-- Packing of `struct.pack(">B H H H", a, b, c, d)`. -/
def packBHHH (a b c d : ℤ) : Option (List Nat) := do
  let xs ← packB a
  let ys ← packH b
  let zs ← packH c
  let ws ← packH d
  pure (xs ++ ys ++ zs ++ ws)

/-- Source method `_send_current_command`: the combobox index (a negative index is replaced
by 0), the clamped height and percentages, the percent-to-raw conversions,
then the 7-byte pack. -/
def sendCurrentCommand (modeIdx spH spV spD : ℤ) : Option (List Nat) :=
  let m := if modeIdx < 0 then 0 else modeIdx
  let hgt := clamp spH 0 500
  let vPct := clamp spV 0 100
  let dPct := clamp spD 0 100
  let v := pctToRaw vPct MAX_VALVE_STEPS
  let d := pctToRaw dPct MAX_DUTY_RAW
  packBHHH m hgt v d

/-- Source method `_send_reset`: `struct.pack(">B H H H", 3, 0, 0, 0)`. -/
def sendResetPayload : Option (List Nat) := packBHHH 3 0 0 0

lemma packBHHH_ok (m hgt v d : ℤ)
    (hm0 : 0 ≤ m) (hm1 : m < 256) (hh0 : 0 ≤ hgt) (hh1 : hgt < 65536)
    (hv0 : 0 ≤ v) (hv1 : v < 65536) (hd0 : 0 ≤ d) (hd1 : d < 65536) :
    packBHHH m hgt v d
      = some ([m.toNat] ++ u16beBytes hgt.toNat ++ u16beBytes v.toNat ++ u16beBytes d.toNat) := by
  simp [packBHHH, packB, packH, hm0, hm1, hh0, hh1, hv0, hv1, hd0, hd1]

/-- C4. Command encoding yields exactly 7 bytes for every in-range command:
one unsigned mode byte followed by the three unsigned 16-bit big-endian
fields heightSetpoint, valveSetpoint, fanDuty in that order; the Reset
command (3, 0, 0, 0) encodes to `03 00 00 00 00 00 00`. -/
theorem encode_seven_bytes (m hgt v d : ℤ)
    (hm0 : 0 ≤ m) (hm1 : m < 256) (hh0 : 0 ≤ hgt) (hh1 : hgt < 65536)
    (hv0 : 0 ≤ v) (hv1 : v < 65536) (hd0 : 0 ≤ d) (hd1 : d < 65536) :
    packBHHH m hgt v d
        = some ([m.toNat] ++ u16beBytes hgt.toNat ++ u16beBytes v.toNat ++ u16beBytes d.toNat) ∧
    (∀ p, packBHHH m hgt v d = some p → p.length = 7) ∧
    sendResetPayload = some [3, 0, 0, 0, 0, 0, 0] := by
  have h1 := packBHHH_ok m hgt v d hm0 hm1 hh0 hh1 hv0 hv1 hd0 hd1
  refine ⟨h1, ?_, by decide⟩
  intro p hp
  rw [h1] at hp
  obtain rfl := Option.some.inj hp.symm
  simp [u16beBytes]

/-- Closed instance of `encode_seven_bytes`: the Reset command fields. -/
theorem encode_seven_bytes_witness :
    packBHHH 3 0 0 0
        = some ([(3 : ℤ).toNat] ++ u16beBytes (0 : ℤ).toNat ++ u16beBytes (0 : ℤ).toNat
            ++ u16beBytes (0 : ℤ).toNat) :=
  (encode_seven_bytes 3 0 0 0 (by decide) (by decide) (by decide) (by decide)
    (by decide) (by decide) (by decide) (by decide)).1

/-- C5. The percent-to-raw conversion is `round(pct * maxRaw / 100)` under a
consistent round-half-to-even rule (the rounding never differs from the true
value by more than 1/2, and at exact halves it lands on an even integer);
valve 50 % of 420 steps gives exactly 210, duty 33 % of 1023 gives
round(337.59) = 338, and the full command for (valve 50 %, duty 33 %) packs
those raw values. -/
theorem pct_scaling :
    (∀ q : ℚ, |(roundHalfEven q : ℚ) - q| ≤ 1 / 2) ∧
    (∀ q : ℚ, q - ⌊q⌋ = 1 / 2 → roundHalfEven q % 2 = 0) ∧
    pctToRaw 50 MAX_VALVE_STEPS = 210 ∧
    pctToRaw 33 MAX_DUTY_RAW = 338 ∧
    sendCurrentCommand 0 0 50 33 = some [0, 0, 0, 0, 210, 1, 82] := by
  have habs : ∀ q : ℚ, |(roundHalfEven q : ℚ) - q| ≤ 1 / 2 := by
    intro q
    have hfl : (⌊q⌋ : ℚ) ≤ q := Int.floor_le q
    have hceil : q ≤ (⌈q⌉ : ℚ) := Int.le_ceil q
    have hceil2 : (⌈q⌉ : ℚ) ≤ (⌊q⌋ : ℚ) + 1 := by
      exact_mod_cast Int.ceil_le_floor_add_one q
    by_cases h1 : q - ⌊q⌋ < 1 / 2
    · rw [roundHalfEven, if_pos h1, abs_sub_comm, abs_of_nonneg (by linarith)]
      linarith
    · by_cases h2 : q - ⌊q⌋ > 1 / 2
      · rw [roundHalfEven, if_neg h1, if_pos h2, abs_of_nonneg (by linarith)]
        linarith
      · have heq : q - ⌊q⌋ = 1 / 2 := le_antisymm (not_lt.mp h2) (not_lt.mp h1)
        by_cases h3 : ⌊q⌋ % 2 = 0
        · rw [roundHalfEven, if_neg h1, if_neg h2, if_pos h3, abs_sub_comm,
            abs_of_nonneg (by linarith)]
          linarith
        · rw [roundHalfEven, if_neg h1, if_neg h2, if_neg h3,
            abs_of_nonneg (by push_cast; linarith)]
          push_cast
          linarith
  have htie : ∀ q : ℚ, q - ⌊q⌋ = 1 / 2 → roundHalfEven q % 2 = 0 := by
    intro q hq
    rw [roundHalfEven, hq]
    rw [if_neg (by norm_num), if_neg (by norm_num)]
    by_cases h3 : ⌊q⌋ % 2 = 0
    · rw [if_pos h3]; exact h3
    · rw [if_neg h3]; omega
  have hv50 : pctToRaw 50 MAX_VALVE_STEPS = 210 := by
    have harg : ((50 : ℤ) : ℚ) * ((MAX_VALVE_STEPS : ℕ) : ℚ) / 100 = 210 := by
      norm_num [MAX_VALVE_STEPS]
    rw [pctToRaw, harg, roundHalfEven]
    norm_num
  have hd33 : pctToRaw 33 MAX_DUTY_RAW = 338 := by
    have harg : ((33 : ℤ) : ℚ) * ((MAX_DUTY_RAW : ℕ) : ℚ) / 100 = 33759 / 100 := by
      norm_num [MAX_DUTY_RAW]
    have hfl : ⌊(33759 : ℚ) / 100⌋ = 337 := by norm_num
    have hcl : ⌈(33759 : ℚ) / 100⌉ = 338 := by
      rw [Int.ceil_eq_iff]
      constructor <;> norm_num
    rw [pctToRaw, harg, roundHalfEven, hfl]
    rw [if_neg (by norm_num), if_pos (by norm_num), hcl]
  have hcmd : sendCurrentCommand 0 0 50 33 = some [0, 0, 0, 0, 210, 1, 82] := by
    have hstep : sendCurrentCommand 0 0 50 33
        = packBHHH 0 0 (pctToRaw 50 MAX_VALVE_STEPS) (pctToRaw 33 MAX_DUTY_RAW) := by
      norm_num [sendCurrentCommand, clamp]
    rw [hstep, hv50, hd33]
    decide
  exact ⟨habs, htie, hv50, hd33, hcmd⟩

/-- Closed instance of `pct_scaling`: the half-way value 511.5 (duty 50 % of
1023) rounds to the even integer 512. -/
theorem pct_scaling_witness :
    roundHalfEven ((511 : ℚ) + 1 / 2) % 2 = 0 :=
  pct_scaling.2.1 ((511 : ℚ) + 1 / 2) (by norm_num)

lemma roundHalfEven_bounds (q : ℚ) (a b : ℤ) (ha : (a : ℚ) ≤ q) (hb : q ≤ (b : ℚ)) :
    a ≤ roundHalfEven q ∧ roundHalfEven q ≤ b := by
  have hfa : a ≤ ⌊q⌋ := Int.le_floor.mpr ha
  have hcb : ⌈q⌉ ≤ b := Int.ceil_le.mpr hb
  have hfc : ⌊q⌋ ≤ ⌈q⌉ := Int.floor_le_ceil q
  by_cases h1 : q - ⌊q⌋ < 1 / 2
  · rw [roundHalfEven, if_pos h1]
    exact ⟨hfa, le_trans hfc hcb⟩
  · by_cases h2 : q - ⌊q⌋ > 1 / 2
    · rw [roundHalfEven, if_neg h1, if_pos h2]
      exact ⟨le_trans hfa hfc, hcb⟩
    · have heq : q - ⌊q⌋ = 1 / 2 := le_antisymm (not_lt.mp h2) (not_lt.mp h1)
      have hflt : (⌊q⌋ : ℚ) < q := by linarith
      have hfb : ⌊q⌋ < b := by
        have hq : (⌊q⌋ : ℚ) < (b : ℚ) := lt_of_lt_of_le hflt hb
        exact_mod_cast hq
      by_cases h3 : ⌊q⌋ % 2 = 0
      · rw [roundHalfEven, if_neg h1, if_neg h2, if_pos h3]
        omega
      · rw [roundHalfEven, if_neg h1, if_neg h2, if_neg h3]
        omega

lemma pctToRaw_bounds (pct : ℤ) (maxRaw : Nat) (h0 : 0 ≤ pct) (h1 : pct ≤ 100) :
    0 ≤ pctToRaw pct maxRaw ∧ pctToRaw pct maxRaw ≤ (maxRaw : ℤ) := by
  have hm0 : (0 : ℚ) ≤ (maxRaw : ℚ) := Nat.cast_nonneg maxRaw
  have hp0 : (0 : ℚ) ≤ (pct : ℚ) := by exact_mod_cast h0
  have hp1 : (pct : ℚ) ≤ 100 := by exact_mod_cast h1
  have ha : (0 : ℚ) ≤ (pct : ℚ) * (maxRaw : ℚ) / 100 :=
    div_nonneg (mul_nonneg hp0 hm0) (by norm_num)
  have hb : (pct : ℚ) * (maxRaw : ℚ) / 100 ≤ (((maxRaw : ℤ)) : ℚ) := by
    rw [div_le_iff₀ (by norm_num : (0 : ℚ) < 100)]
    push_cast
    nlinarith
  exact roundHalfEven_bounds _ 0 (maxRaw : ℤ) (by exact_mod_cast ha) hb

/-- C10. The command-building path cannot produce an out-of-range field:
with any selection index at most 3 (the combobox has four entries and
`current()` is at least −1, negatives being replaced by 0), the clamps put
every field inside its wire width, the pack succeeds (its out-of-range
failure branch is unreachable), the payload has exactly 7 bytes, and it
passes the size check of `_send` on an open connection. -/
theorem command_safety (modeIdx spH spV spD : ℤ) (hmode : modeIdx ≤ 3) :
    ∃ p, sendCurrentCommand modeIdx spH spV spD = some p ∧ p.length = 7 ∧
      sendOp (some true) p = (SendResult.sent, p) := by
  have hm0 : 0 ≤ (if modeIdx < 0 then 0 else modeIdx) := by split <;> omega
  have hm1 : (if modeIdx < 0 then 0 else modeIdx) < 256 := by split <;> omega
  have hh0 : 0 ≤ clamp spH 0 500 := le_max_left 0 _
  have hh1 : clamp spH 0 500 < 65536 := by
    have h5 : clamp spH 0 500 ≤ 500 := max_le (by norm_num) (min_le_left _ _)
    omega
  have hv := pctToRaw_bounds (clamp spV 0 100) MAX_VALVE_STEPS (le_max_left 0 _)
    (max_le (by norm_num) (min_le_left _ _))
  have hd := pctToRaw_bounds (clamp spD 0 100) MAX_DUTY_RAW (le_max_left 0 _)
    (max_le (by norm_num) (min_le_left _ _))
  have hvc : ((MAX_VALVE_STEPS : ℕ) : ℤ) = 420 := by norm_num [MAX_VALVE_STEPS]
  have hdc : ((MAX_DUTY_RAW : ℕ) : ℤ) = 1023 := by norm_num [MAX_DUTY_RAW]
  have hv1 : pctToRaw (clamp spV 0 100) MAX_VALVE_STEPS < 65536 := by
    have h4 := hv.2
    omega
  have hd1 : pctToRaw (clamp spD 0 100) MAX_DUTY_RAW < 65536 := by
    have h4 := hd.2
    omega
  have hpk := packBHHH_ok (if modeIdx < 0 then 0 else modeIdx) (clamp spH 0 500)
    (pctToRaw (clamp spV 0 100) MAX_VALVE_STEPS) (pctToRaw (clamp spD 0 100) MAX_DUTY_RAW)
    hm0 hm1 hh0 hh1 hv.1 hv1 hd.1 hd1
  have hsc : sendCurrentCommand modeIdx spH spV spD
      = packBHHH (if modeIdx < 0 then 0 else modeIdx) (clamp spH 0 500)
          (pctToRaw (clamp spV 0 100) MAX_VALVE_STEPS)
          (pctToRaw (clamp spD 0 100) MAX_DUTY_RAW) := rfl
  refine ⟨[(if modeIdx < 0 then 0 else modeIdx).toNat] ++ u16beBytes (clamp spH 0 500).toNat
      ++ u16beBytes (pctToRaw (clamp spV 0 100) MAX_VALVE_STEPS).toNat
      ++ u16beBytes (pctToRaw (clamp spD 0 100) MAX_DUTY_RAW).toNat, ?_, ?_, ?_⟩
  · rw [hsc, hpk]
  · simp [u16beBytes]
  · simp [sendOp, BYTES_PER_FRAME_TX, u16beBytes]

/-- Closed instance of `command_safety`: an out-of-range height request is
clamped and still produces a valid sendable 7-byte payload. -/
theorem command_safety_witness :
    ∃ p, sendCurrentCommand 3 600 50 33 = some p ∧ p.length = 7 ∧
      sendOp (some true) p = (SendResult.sent, p) :=
  command_safety 3 600 50 33 (by norm_num)
